import Mathlib

/-!
Verification of the `black_primer.cli` module (src/src/black_primer/cli.py)
of the `tan` repository: project-list selection (`load_projects`,
`_projects_callback`) and the orchestration in `async_main` (working-directory
creation, the `which("tan")` precondition check, the call into
`lib.process_queue`, and the `finally`-block cleanup with
`rmtree(..., onerror=lib.handle_PermissionError)`).

The embedding is a shallow one.  Pure list/string manipulation is translated
directly.  The side-effecting body of `async_main` is modelled as a function of
an `Env` record giving the outcome of each external call (is `tan` on `PATH`,
does the workdir exist, does `mkdir` succeed, what does `lib.process_queue`
do); it returns the Python return value (or a propagated exception) together
with the ordered trace of observable side-effecting steps.
-/

namespace BlackPrimer

/-- Python's `projects.split(",")` on the character list of the option
string: cuts at every comma, keeping empty pieces (so `"a,,b"` yields
`["a", "", "b"]` and `""` yields `[""]`), `acc` holding the current piece in
reverse. -/
def splitCommaAux : List Char → List Char → List String
  | [], acc => [String.mk acc.reverse]
  | c :: rest, acc =>
    if c = ',' then String.mk acc.reverse :: splitCommaAux rest []
    else splitCommaAux rest (c :: acc)

/-- Python's `projects.split(",")`. -/
def splitComma (s : String) : List String :=
  splitCommaAux s.data []

/-- Python's `<=` on two strings: lexicographic comparison of the character
sequences by code point (shorter prefix first). -/
def strLeAux : List Char → List Char → Bool
  | [], _ => true
  | _ :: _, [] => false
  | a :: as, b :: bs => if a = b then strLeAux as bs else decide (a < b)

/-- Python's `<=` on strings, the comparison underlying `sorted`. -/
def strLe (a b : String) : Bool :=
  strLeAux a.data b.data

/-- `load_projects(config_path)` from cli.py: returns
`sorted(json.load(config)["projects"].keys())`.  A configuration file is
represented by the list of keys of its `"projects"` mapping; only membership
and the final sorting matter. -/
def load_projects (configKeys : List String) : List String :=
  List.insertionSort (fun a b => strLe a b) configKeys

/-- `_projects_callback(ctx, param, projects)` from cli.py: splits the
requested option string on commas into a set, loads the available project
names from the configuration, logs an error when some requested names are
unavailable, and returns `sorted(requested_projects & available_projects)`.

First component: the returned project list.  Second component: whether the
`LOG.error` branch fired (the `if unavailable:` test). -/
def projects_callback (configKeys : List String) (projects : String) :
    List String × Bool :=
  let requested := splitComma projects
  let available := load_projects configKeys
  (List.insertionSort (fun a b => strLe a b)
      ((requested.filter (fun p => available.contains p)).dedup),
    !(requested.filter (fun p => !(available.contains p))).isEmpty)

/-- The selection in the order the option string supplied it (first occurrence
kept, duplicates removed, unavailable names dropped).  This is the reading of
the claim "order as supplied, duplicates removed"; it is compared with what
`projects_callback` actually returns. -/
def suppliedOrderSelection (configKeys : List String) (projects : String) :
    List String :=
  ((splitComma projects).filter
      (fun p => (load_projects configKeys).contains p)).foldl
    (fun acc x => if x ∈ acc then acc else acc ++ [x]) []

instance exceptDecEq {ε α : Type} [DecidableEq ε] [DecidableEq α] :
    DecidableEq (Except ε α) := fun x y =>
  match x, y with
  | Except.ok a, Except.ok b =>
    if h : a = b then isTrue (by rw [h])
    else isFalse (by intro hc; cases hc; exact h rfl)
  | Except.ok _, Except.error _ => isFalse (by intro hc; cases hc)
  | Except.error _, Except.ok _ => isFalse (by intro hc; cases hc)
  | Except.error a, Except.error b =>
    if h : a = b then isTrue (by rw [h])
    else isFalse (by intro hc; cases hc; exact h rfl)

/-- Exceptions that can escape `async_main`: the `OSError` raised by
`work_path.mkdir()`, or an exception raised inside `lib.process_queue` and
re-raised after the `finally` block. -/
inductive PrimerExn
  | mkdirError
  | processQueueExn
deriving DecidableEq, Repr

/-- The observable side-effecting steps of `async_main`, in program order:
creating the working directory, invoking `lib.process_queue` on a project
list, and removing the working directory tree (the flag records whether the
`onerror=lib.handle_PermissionError` handler was passed to `rmtree`). -/
inductive Action
  | mkdirWorkdir
  | processQueue (projects : List String)
  | rmtreeWorkdir (withPermissionErrorHandler : Bool)
deriving DecidableEq, Repr

/-- The environment `async_main` runs against: the outcome of each external
call it makes. -/
structure Env where
  /-- `which("tan")` finds the executable on the search path. -/
  tanInPath : Bool
  /-- `work_path.exists()` holds on entry. -/
  workdirExists : Bool
  /-- `work_path.mkdir()` succeeds if attempted. -/
  mkdirOk : Bool
  /-- behaviour of `lib.process_queue`: returns an int, or raises. -/
  pqResult : Except Unit Int
deriving DecidableEq, Repr

/-- The outcome of one `async_main` run: the value returned to the caller (or
the exception that propagated), the trace of side-effecting steps, and whether
the working directory still exists afterwards. -/
structure RunResult where
  ret : Except PrimerExn Int
  trace : List Action
  workdirExistsAfter : Bool
deriving DecidableEq, Repr

/-- `async_main(config, debug, keep, long_checkouts, no_diff, projects,
rebase, workdir, workers)` from cli.py, as a function of the environment:

* `if not work_path.exists(): work_path.mkdir()` — a failing `mkdir` raises
  and the exception propagates (nothing catches it);
* `if not which("tan"): return -1`;
* `try: return int(await lib.process_queue(...)) finally: if not keep and
  work_path.exists(): rmtree(work_path, onerror=lib.handle_PermissionError)`.

`lib.process_queue` works inside per-project subdirectories of the working
directory and does not remove the working directory itself, so the
`work_path.exists()` re-check in the `finally` block sees the directory that
existed (or was created) on entry. -/
def async_main (env : Env) (keep : Bool) (projects : List String) : RunResult :=
  if !env.workdirExists && !env.mkdirOk then
    { ret := Except.error PrimerExn.mkdirError
      trace := [Action.mkdirWorkdir]
      workdirExistsAfter := false }
  else
    let mkTrace : List Action :=
      if env.workdirExists then [] else [Action.mkdirWorkdir]
    if !env.tanInPath then
      { ret := Except.ok (-1)
        trace := mkTrace
        workdirExistsAfter := true }
    else
      { ret :=
          match env.pqResult with
          | Except.ok n => Except.ok n
          | Except.error _ => Except.error PrimerExn.processQueueExn
        trace := mkTrace ++ [Action.processQueue projects] ++
          (if keep then [] else [Action.rmtreeWorkdir true])
        workdirExistsAfter := keep }

/-- A file inside the working directory tree as seen by `shutil.rmtree`: only
its permission (read-only) bit matters for removal. -/
structure FsFile where
  name : String
  readOnly : Bool
deriving DecidableEq, Repr

/-- Modelled from the spec: `lib.handle_PermissionError`, the `onerror`
handler that cli.py passes to `shutil.rmtree` (the handler itself lives in
`black_primer.lib`, which is not among the given sources).  On a permission
error it adjusts the file's permissions — clears the read-only bit — so that
the removal can be retried rather than aborting. -/
def handle_PermissionError (f : FsFile) : FsFile :=
  { f with readOnly := false }

/-- Modelled from the spec: removal of one file by `shutil.rmtree`.  A
read-only file raises a permission error; with an `onerror` handler the
handler adjusts the file and the removal is retried, and only a still
read-only file aborts; without a handler the error aborts the removal. -/
def removeFile (onerror : Option (FsFile → FsFile)) (f : FsFile) :
    Except Unit Unit :=
  if f.readOnly then
    match onerror with
    | some h => if (h f).readOnly then Except.error () else Except.ok ()
    | none => Except.error ()
  else Except.ok ()

/-- Modelled from the spec: `shutil.rmtree(work_path, onerror=...)` over the
files of the working directory tree — removes each file in turn, aborting at
the first unhandled error. -/
def rmtree (files : List FsFile) (onerror : Option (FsFile → FsFile)) :
    Except Unit Unit :=
  match files with
  | [] => Except.ok ()
  | f :: rest =>
    match removeFile onerror f with
    | Except.ok _ => rmtree rest onerror
    | Except.error e => Except.error e

/-! Helper lemmas. -/

theorem strLeAux_total : ∀ as bs : List Char,
    strLeAux as bs = true ∨ strLeAux bs as = true
  | [], _ => Or.inl rfl
  | _ :: _, [] => Or.inr rfl
  | a :: as, b :: bs => by
    by_cases hab : a = b
    · subst hab
      simpa [strLeAux] using strLeAux_total as bs
    · rcases lt_trichotomy a b with h | h | h
      · exact Or.inl (by simp [strLeAux, hab, h])
      · exact absurd h hab
      · exact Or.inr (by simp [strLeAux, Ne.symm hab, h])

theorem strLeAux_trans : ∀ as bs cs : List Char,
    strLeAux as bs = true → strLeAux bs cs = true → strLeAux as cs = true
  | [], _, _, _, _ => rfl
  | _ :: _, [], _, h, _ => by simp [strLeAux] at h
  | _ :: _, _ :: _, [], _, h => by simp [strLeAux] at h
  | a :: as, b :: bs, c :: cs, h1, h2 => by
    by_cases hab : a = b <;> by_cases hbc : b = c
    · subst hab; subst hbc
      simp only [strLeAux, if_pos rfl] at h1 h2 ⊢
      exact strLeAux_trans as bs cs h1 h2
    · subst hab
      simpa [strLeAux, hbc] using h2
    · subst hbc
      simpa [strLeAux, hab] using h1
    · simp only [strLeAux, if_neg hab, decide_eq_true_eq] at h1
      simp only [strLeAux, if_neg hbc, decide_eq_true_eq] at h2
      have hac : a < c := lt_trans h1 h2
      simp [strLeAux, ne_of_lt hac, hac]

theorem strLe_total (a b : String) : strLe a b = true ∨ strLe b a = true :=
  strLeAux_total a.data b.data

theorem strLe_trans {a b c : String} (h1 : strLe a b = true)
    (h2 : strLe b c = true) : strLe a c = true :=
  strLeAux_trans a.data b.data c.data h1 h2

instance : IsTotal String (fun a b => strLe a b = true) :=
  ⟨strLe_total⟩

instance : IsTrans String (fun a b => strLe a b = true) :=
  ⟨fun _ _ _ => strLe_trans⟩

theorem mem_load_projects {p : String} {cfg : List String} :
    p ∈ load_projects cfg ↔ p ∈ cfg :=
  List.mem_insertionSort _

theorem mem_projects_callback {cfg : List String} {s p : String} :
    p ∈ (projects_callback cfg s).1 ↔ p ∈ splitComma s ∧ p ∈ cfg := by
  simp [projects_callback, List.mem_insertionSort, List.mem_dedup,
    List.mem_filter, mem_load_projects]

theorem projects_callback_nodup (cfg : List String) (s : String) :
    (projects_callback cfg s).1.Nodup :=
  (List.perm_insertionSort _ _).nodup_iff.mpr (List.nodup_dedup _)

theorem mkdirOk_of_precheck {env : Env}
    (hw : env.workdirExists = true ∨ env.mkdirOk = true)
    (h2 : env.workdirExists = false) : env.mkdirOk = true := by
  rcases hw with h | h
  · rw [h] at h2; cases h2
  · exact h

theorem rmtree_with_handler_ok (files : List FsFile) :
    rmtree files (some handle_PermissionError) = Except.ok () := by
  induction files with
  | nil => rfl
  | cons f rest ih =>
    by_cases h : f.readOnly <;>
      simp [rmtree, removeFile, handle_PermissionError, h, ih]

/-! Concrete inputs for the closed instances below. -/

def cfgAB : List String := ["a", "b"]

def cfgA : List String := ["a"]

def nameA : String := "a"

def nameZ : String := "z"

def reqBA : String := "b,a"

def reqAA : String := "a,a"

def reqZ : String := "z"

def envTanMissing : Env := ⟨false, true, true, Except.ok 0⟩

def envMkdirFail : Env := ⟨true, false, false, Except.ok 0⟩

def envFreshOk : Env := ⟨true, false, true, Except.ok 0⟩

def envAllOk : Env := ⟨true, true, true, Except.ok 0⟩

def envPqRaises : Env := ⟨true, true, true, Except.error ()⟩

/-! The claims. -/

/-- C1: if the `tan` executable is absent from the execution search path,
`lib.process_queue` is never invoked (so no checkout or formatter subprocess
is ever started), and — provided the working-directory step itself did not
raise — `async_main` returns `-1`. -/
theorem tan_absent_returns_neg_one_and_no_subprocess (env : Env) (keep : Bool)
    (ps : List String) (htan : env.tanInPath = false) :
    (∀ qs, Action.processQueue qs ∉ (async_main env keep ps).trace) ∧
    (env.workdirExists = true ∨ env.mkdirOk = true →
      (async_main env keep ps).ret = Except.ok (-1)) := by
  constructor
  · intro qs
    rcases Bool.eq_false_or_eq_true env.workdirExists with hw | hw <;>
      rcases Bool.eq_false_or_eq_true env.mkdirOk with hm | hm <;>
        simp [async_main, htan, hw, hm]
  · intro hw
    rcases hw with h | h <;> simp [async_main, htan, h]

theorem tan_absent_returns_neg_one_and_no_subprocess_witness :
    (∀ qs, Action.processQueue qs ∉ (async_main envTanMissing false []).trace) ∧
    (envTanMissing.workdirExists = true ∨ envTanMissing.mkdirOk = true →
      (async_main envTanMissing false []).ret = Except.ok (-1)) :=
  tan_absent_returns_neg_one_and_no_subprocess envTanMissing false [] rfl

/-- C2 counterexample: with the working directory absent and its creation
failing, the run does not return `-1`: the `mkdir` exception propagates to
the caller. -/
theorem mkdir_failure_does_not_return_neg_one :
    (async_main envMkdirFail false []).ret ≠ Except.ok (-1) := by
  decide

/-- C2 (amended): if the working directory cannot be created, the run aborts
before any worker starts — `lib.process_queue` is never invoked and no
cleanup runs — but the `mkdir` exception propagates to the caller instead of
the run returning `-1`. -/
theorem mkdir_failure_aborts_with_exception (env : Env) (keep : Bool)
    (ps : List String) (habs : env.workdirExists = false)
    (hmk : env.mkdirOk = false) :
    (async_main env keep ps).ret = Except.error PrimerExn.mkdirError ∧
    (∀ qs, Action.processQueue qs ∉ (async_main env keep ps).trace) ∧
    (∀ b, Action.rmtreeWorkdir b ∉ (async_main env keep ps).trace) := by
  simp [async_main, habs, hmk]

theorem mkdir_failure_aborts_with_exception_witness :
    (async_main envMkdirFail false []).ret = Except.error PrimerExn.mkdirError :=
  (mkdir_failure_aborts_with_exception envMkdirFail false [] rfl rfl).1

/-- C3 counterexample: requesting `"b,a"` against a configuration containing
`a` and `b` yields the sorted list `["a", "b"]`, not the supplied order
`["b", "a"]`: the selection does not preserve the order in which the
projects were supplied. -/
theorem projects_order_not_as_supplied :
    (projects_callback cfgAB reqBA).1 ≠ suppliedOrderSelection cfgAB reqBA := by
  decide

/-- C3 (amended): the project list handed to the queue processor is the
requested-and-available selection with duplicates removed, sorted in
ascending lexicographic order — not in the order in which the projects were
supplied. -/
theorem projects_selection_sorted (cfg : List String) (s : String) :
    (projects_callback cfg s).1.Sorted (fun a b => strLe a b = true) ∧
    (∀ p, p ∈ (projects_callback cfg s).1 ↔ p ∈ splitComma s ∧ p ∈ cfg) := by
  constructor
  · exact List.sorted_insertionSort _ _
  · intro p
    exact mem_projects_callback

/-- C4: each selected project appears exactly once in the project list handed
to the queue processor: the selection contains no duplicate names. -/
theorem projects_selection_each_once (cfg : List String) (s : String)
    (p : String) (hp : p ∈ (projects_callback cfg s).1) :
    (projects_callback cfg s).1.count p = 1 :=
  List.count_eq_one_of_mem (projects_callback_nodup cfg s) hp

theorem projects_selection_each_once_witness :
    nameA ∈ (projects_callback cfgAB reqAA).1 ∧
    (projects_callback cfgAB reqAA).1.count nameA = 1 :=
  ⟨by decide, projects_selection_each_once cfgAB reqAA nameA (by decide)⟩

/-- C5: every name in the project list handed to the queue processor is a
project name present in the loaded configuration: requested names not in the
configuration are excluded. -/
theorem projects_selection_from_config (cfg : List String) (s : String)
    (p : String) (hp : p ∈ (projects_callback cfg s).1) : p ∈ cfg :=
  (mem_projects_callback.mp hp).2

theorem projects_selection_from_config_witness :
    nameA ∈ (projects_callback cfgAB reqBA).1 ∧ nameA ∈ cfgAB :=
  ⟨by decide, projects_selection_from_config cfgAB reqBA nameA (by decide)⟩

/-- C6: when the supplied working-directory path does not exist, creating it
is the very first step of the run — it happens before the `which("tan")`
precondition check (the theorem holds whatever that check will find) and
before any other work. -/
theorem workdir_created_before_tan_check (env : Env) (keep : Bool)
    (ps : List String) (habs : env.workdirExists = false) :
    (async_main env keep ps).trace.head? = some Action.mkdirWorkdir := by
  rcases Bool.eq_false_or_eq_true env.tanInPath with ht | ht <;>
    rcases Bool.eq_false_or_eq_true env.mkdirOk with hm | hm <;>
      simp [async_main, habs, ht, hm]

theorem workdir_created_before_tan_check_witness :
    (async_main envFreshOk false []).trace.head? = some Action.mkdirWorkdir :=
  workdir_created_before_tan_check envFreshOk false [] rfl

/-- C7: after `lib.process_queue` returns, when `keep` is false the working
directory is removed exactly once, after the processor call, and every
removal in the trace is an `rmtree` carrying the `handle_PermissionError`
handler — a removal that succeeds even when files of the tree are read-only
rather than aborting; when `keep` is true no removal happens and the
directory is left in place. -/
theorem cleanup_once_tolerating_permission_errors (env : Env) (keep : Bool)
    (ps : List String) (n : Int) (htan : env.tanInPath = true)
    (hw : env.workdirExists = true ∨ env.mkdirOk = true)
    (hpq : env.pqResult = Except.ok n) :
    (keep = false →
      (async_main env keep ps).trace.count (Action.rmtreeWorkdir true) = 1 ∧
      (∀ b, Action.rmtreeWorkdir b ∈ (async_main env keep ps).trace → b = true) ∧
      (∃ pre, (async_main env keep ps).trace =
        pre ++ [Action.processQueue ps, Action.rmtreeWorkdir true]) ∧
      (async_main env keep ps).workdirExistsAfter = false) ∧
    (keep = true →
      (∀ b, Action.rmtreeWorkdir b ∉ (async_main env keep ps).trace) ∧
      (async_main env keep ps).workdirExistsAfter = true) ∧
    (∀ files, rmtree files (some handle_PermissionError) = Except.ok ()) := by
  refine ⟨?_, ?_, rmtree_with_handler_ok⟩
  · intro hk
    subst hk
    rcases Bool.eq_false_or_eq_true env.workdirExists with hw2 | hw2
    · refine ⟨?_, ?_, ⟨[], ?_⟩, ?_⟩ <;>
        simp [async_main, htan, hw2, List.count_cons, List.count_nil]
    · have hm : env.mkdirOk = true := mkdirOk_of_precheck hw hw2
      refine ⟨?_, ?_, ⟨[Action.mkdirWorkdir], ?_⟩, ?_⟩ <;>
        simp [async_main, htan, hw2, hm, List.count_cons, List.count_nil]
  · intro hk
    subst hk
    rcases Bool.eq_false_or_eq_true env.workdirExists with hw2 | hw2
    · exact ⟨fun b => by simp [async_main, htan, hw2], by
        simp [async_main, htan, hw2]⟩
    · have hm : env.mkdirOk = true := mkdirOk_of_precheck hw hw2
      exact ⟨fun b => by simp [async_main, htan, hw2, hm], by
        simp [async_main, htan, hw2, hm]⟩

theorem cleanup_once_tolerating_permission_errors_witness :
    (async_main envAllOk false []).trace.count (Action.rmtreeWorkdir true) = 1 :=
  (((cleanup_once_tolerating_permission_errors envAllOk false [] 0 rfl
    (Or.inl rfl) rfl).1) rfl).1

/-- C8: requested names missing from the configuration never raise: the
callback logs them and drops them, still returning the sorted intersection —
which may be empty — and `async_main` passes that selection, unchanged, to
`lib.process_queue`. -/
theorem unavailable_projects_dropped_not_fatal (cfg : List String) (s : String)
    (env : Env) (keep : Bool) (p : String) (hreq : p ∈ splitComma s)
    (hmiss : p ∉ cfg) (htan : env.tanInPath = true)
    (hw : env.workdirExists = true ∨ env.mkdirOk = true) :
    (projects_callback cfg s).2 = true ∧
    Action.processQueue (projects_callback cfg s).1 ∈
      (async_main env keep (projects_callback cfg s).1).trace := by
  constructor
  · have hmem : p ∈ (splitComma s).filter
        (fun q => !((load_projects cfg).contains q)) := by
      refine List.mem_filter.mpr ⟨hreq, ?_⟩
      simp [mem_load_projects, hmiss]
    have hne := List.ne_nil_of_mem hmem
    simp only [projects_callback, Bool.not_eq_true', List.isEmpty_eq_false]
    exact hne
  · rcases Bool.eq_false_or_eq_true env.workdirExists with hw2 | hw2
    · simp [async_main, htan, hw2]
    · have hm : env.mkdirOk = true := mkdirOk_of_precheck hw hw2
      simp [async_main, htan, hw2, hm]

theorem unavailable_projects_dropped_not_fatal_witness :
    (projects_callback cfgA reqZ).2 = true ∧
    Action.processQueue (projects_callback cfgA reqZ).1 ∈
      (async_main envAllOk false (projects_callback cfgA reqZ).1).trace :=
  unavailable_projects_dropped_not_fatal cfgA reqZ envAllOk false nameZ
    (by decide) (by decide) rfl (Or.inl rfl)

/-- C9: on the precondition-failure path where `tan` is missing, a working
directory freshly created by this run is not removed before returning `-1`,
even with `keep` false: no removal appears in the trace and the directory
still exists afterwards. -/
theorem fresh_workdir_kept_when_tan_missing (env : Env) (ps : List String)
    (habs : env.workdirExists = false) (hmk : env.mkdirOk = true)
    (htan : env.tanInPath = false) :
    (async_main env false ps).ret = Except.ok (-1) ∧
    Action.mkdirWorkdir ∈ (async_main env false ps).trace ∧
    (∀ b, Action.rmtreeWorkdir b ∉ (async_main env false ps).trace) ∧
    (async_main env false ps).workdirExistsAfter = true := by
  simp [async_main, habs, hmk, htan]

theorem fresh_workdir_kept_when_tan_missing_witness :
    (async_main ⟨false, false, true, Except.ok 0⟩ false []).workdirExistsAfter =
      true :=
  (fresh_workdir_kept_when_tan_missing ⟨false, false, true, Except.ok 0⟩ []
    rfl rfl rfl).2.2.2

/-- C10: when `lib.process_queue` raises after being started, with `keep`
false the working-directory cleanup still runs — the `rmtree` with the
permission-error handler appears in the trace, at its very end, and the
directory is gone — before the exception propagates to the caller. -/
theorem cleanup_runs_when_process_queue_raises (env : Env) (ps : List String)
    (htan : env.tanInPath = true)
    (hw : env.workdirExists = true ∨ env.mkdirOk = true)
    (hpq : env.pqResult = Except.error ()) :
    (async_main env false ps).ret = Except.error PrimerExn.processQueueExn ∧
    (∃ pre, (async_main env false ps).trace =
      pre ++ [Action.processQueue ps, Action.rmtreeWorkdir true]) ∧
    (async_main env false ps).workdirExistsAfter = false := by
  rcases Bool.eq_false_or_eq_true env.workdirExists with hw2 | hw2
  · refine ⟨?_, ⟨[], ?_⟩, ?_⟩ <;> simp [async_main, htan, hw2, hpq]
  · have hm : env.mkdirOk = true := mkdirOk_of_precheck hw hw2
    refine ⟨?_, ⟨[Action.mkdirWorkdir], ?_⟩, ?_⟩ <;>
      simp [async_main, htan, hw2, hm, hpq]

theorem cleanup_runs_when_process_queue_raises_witness :
    (async_main envPqRaises false []).ret =
      Except.error PrimerExn.processQueueExn ∧
    (∃ pre, (async_main envPqRaises false []).trace =
      pre ++ [Action.processQueue [], Action.rmtreeWorkdir true]) ∧
    (async_main envPqRaises false []).workdirExistsAfter = false :=
  cleanup_runs_when_process_queue_raises envPqRaises [] rfl (Or.inl rfl) rfl

end BlackPrimer
